import Mathlib

/-
Shallow embedding of the maschine-rs driver core, verified against the
natural-language specification.  Sources embedded here:
  src/colour.rs                     (Colour model)
  src/display.rs                    (MonochromeCanvas)
  src/events.rs, src/error.rs       (Event and Error types)
  src/devices/maschine_mikro_mk2.rs (decoder, LED mapper, scheduler)
Machine bytes are modelled as Nat values below 256; Rust slice indexing
that can panic is modelled with Option (none = panic); the HID transport
is modelled as explicit lists of write outcomes and read results carried
inside the driver state.
-/

set_option maxRecDepth 100000

namespace Maschine

/-! ## Colour model (src/colour.rs) -/

structure Colour where
  r : Nat
  g : Nat
  b : Nat
deriving DecidableEq

def Colour.BLACK : Colour := ⟨0, 0, 0⟩

def Colour.WHITE : Colour := ⟨0xFF, 0xFF, 0xFF⟩

/-- Monochrome representation of the colour (Colour::as_1bit). -/
def Colour.as_1bit (c : Colour) : Nat :=
  if (c.r > 0x7F) ∨ (c.g > 0x7F) ∨ (c.b > 0x7F) then 0xFF else 0x00

/-- Components of the colour as a triple (Colour::components). -/
def Colour.components (c : Colour) : Nat × Nat × Nat := (c.r, c.g, c.b)

/-! ## Canvas (src/display.rs) -/

inductive Pixel
  | On
  | Off
deriving DecidableEq

structure MonochromeCanvas where
  width : Nat
  height : Nat
  buffer : List Nat
  dirty : Bool
deriving DecidableEq

/-- MonochromeCanvas::new. -/
def MonochromeCanvas.new (width height : Nat) : MonochromeCanvas :=
  ⟨width, height, List.replicate (width * height / 8) 0, true⟩

def MonochromeCanvas.is_dirty (c : MonochromeCanvas) : Bool := c.dirty

def MonochromeCanvas.clear_dirty_flag (c : MonochromeCanvas) : MonochromeCanvas :=
  { c with dirty := false }

def MonochromeCanvas.data (c : MonochromeCanvas) : List Nat := c.buffer

/-- Complement (Rust bitwise not on u8) of every byte whose index lies in
the half-open range, leaving the rest unchanged; models iteration over
the slice buffer[start..stop]. -/
def invertRange (buf : List Nat) (start stop : Nat) : List Nat :=
  (List.range buf.length).zipWith
    (fun i b => if start ≤ i ∧ i < stop then 0xFF ^^^ b else b) buf

/-- MonochromeCanvas::invert_row.  The Rust body slices
buffer[start..start+width], which panics when the end exceeds the buffer
length (modelled as none).  The source does not touch the dirty flag. -/
def MonochromeCanvas.invert_row (c : MonochromeCanvas) (row : Nat) :
    Option MonochromeCanvas :=
  let start := row * c.width
  if start + c.width ≤ c.buffer.length then
    some { c with buffer := invertRange c.buffer start (start + c.width) }
  else none

/-- MonochromeCanvas::invert_row_slice.  Slicing panics when end_col is
below start_col (usize underflow) or the end exceeds the buffer length;
both are modelled as none.  The source does not touch the dirty flag. -/
def MonochromeCanvas.invert_row_slice (c : MonochromeCanvas)
    (row start_col end_col : Nat) : Option MonochromeCanvas :=
  let start := row * c.width + start_col
  if start_col ≤ end_col ∧ start + (end_col - start_col) ≤ c.buffer.length then
    some { c with buffer := invertRange c.buffer start (start + (end_col - start_col)) }
  else none

/-- MonochromeCanvas::copy_from replaces the backing buffer with the data
of the other canvas; the source does not touch the dirty flag. -/
def MonochromeCanvas.copy_from (c other : MonochromeCanvas) : MonochromeCanvas :=
  { c with buffer := other.data }

/-- MonochromeCanvas::set_pixel.  The bounds test of the source uses
strict greater-than on both coordinates; an in-range byte update sets the
dirty flag, an out-of-bounds byte index panics (none). -/
def MonochromeCanvas.set_pixel (c : MonochromeCanvas) (x y : Nat) (colour : Pixel) :
    Option MonochromeCanvas :=
  if (x > c.width) ∨ (y > c.height) then some c
  else
    let byte_index := c.width * (y >>> 3) + x
    match c.buffer[byte_index]? with
    | none => none
    | some byte =>
      let updated := match colour with
        | Pixel.On => byte ||| (1 <<< (y % 8))
        | Pixel.Off => byte &&& (0xFF ^^^ (1 <<< (y % 8)))
      some { c with buffer := c.buffer.set byte_index updated, dirty := true }

/-- MonochromeCanvas::pixel.  Outer none models a panic from an
out-of-bounds byte index; some none is the Rust None return for
coordinates rejected by the bounds test. -/
def MonochromeCanvas.pixel (c : MonochromeCanvas) (x y : Nat) :
    Option (Option Pixel) :=
  if (x > c.width) ∨ (y > c.height) then some none
  else
    let byte_index := c.width * (y >>> 3) + x
    match c.buffer[byte_index]? with
    | none => none
    | some byte =>
      let p := byte >>> ((y % 8) &&& 0x01)
      some (some (if p = 0 then Pixel.Off else Pixel.On))

/-! ## Events and errors (src/events.rs, src/error.rs) -/

inductive Direction
  | Up
  | Down
deriving DecidableEq

inductive Button
  | Erase | Rec | Play | Grid | TransportRight | TransportLeft | Restart
  | MainEncoder | NoteRepeat | Sampling | Browse | Group | Main
  | BrowseRight | BrowseLeft | Nav | Control | F3 | F2 | F1 | Mute | Solo
  | Select | Duplicate | View | PadMode | Pattern | Scene | Unknown
deriving DecidableEq

inductive Event
  | ButtonChange (button : Button) (pressed : Bool) (shift : Bool)
  | EncoderChange (encoder : Nat) (dir : Direction) (shift : Bool)
  | PadChange (pad : Nat) (velocity : Nat) (shift : Bool)
deriving DecidableEq

inductive Error
  | HidAPI
  | InvalidReport
  | UnknownControl
deriving DecidableEq

/-! ## Device constants (src/devices/maschine_mikro_mk2.rs) -/

def LED_GROUP : Nat := 0x08
def LED_SHIFT : Nat := 0x15
def LED_PAD13 : Nat := 0x1E
def LED_PAD04 : Nat := 0x4B
def BUTTON_SHIFT : Nat := 0x00
def BUTTON_NONE : Nat := 0x20
def LED_COUNT : Nat := 78
def BUTTON_COUNT : Nat := 45
def PAD_COUNT : Nat := 16
def DISPLAY_ADDR : Nat := 0xE0
def LED_ADDR : Nat := 0x80

/-! ## Transport model

The HidDevice collaborator is modelled by explicit lists: outcomes of
successive write calls (true = success), a log of the byte sequences
successfully written, and results of successive read calls (none = read
error, some bytes = that many bytes arrived).  An exhausted list means
the transport keeps succeeding with empty reads. -/

structure Dev where
  outcomes : List Bool
  written : List (List Nat)
  reads : List (Option (List Nat))
deriving DecidableEq

/-! ## Driver state (struct MaschineMikroMk2) -/

structure Mk2 where
  dev : Dev
  tick_state : Nat
  display : MonochromeCanvas
  leds : List Nat
  leds_dirty : Bool
  button_states : List Bool
  shift_pressed : Bool
  pads_data : List Nat
  pads_status : List Bool
  encoder_value : Nat
deriving DecidableEq

/-- MaschineMikroMk2::new for a given transport. -/
def newMk2 (dev : Dev) : Mk2 :=
  { dev := dev
    tick_state := 0
    display := MonochromeCanvas.new 128 64
    leds := List.replicate LED_COUNT 0
    leds_dirty := true
    button_states := List.replicate BUTTON_COUNT false
    shift_pressed := false
    pads_data := List.replicate PAD_COUNT 0
    pads_status := List.replicate PAD_COUNT false
    encoder_value := 0 }

/-- HidDevice::write: consume the next outcome; log the bytes on success,
report a transport error on failure. -/
def devWrite (s : Mk2) (bytes : List Nat) : Option Error × Mk2 :=
  match s.dev.outcomes with
  | [] => (none, { s with dev := { s.dev with written := s.dev.written ++ [bytes] } })
  | w :: rest =>
    if w then
      (none, { s with dev := { outcomes := rest, written := s.dev.written ++ [bytes], reads := s.dev.reads } })
    else
      (some Error.HidAPI, { s with dev := { s.dev with outcomes := rest } })

/-- HidDevice::read: consume the next read result. -/
def devRead (s : Mk2) : Option (List Nat) × Mk2 :=
  match s.dev.reads with
  | [] => (some [], s)
  | r :: rest => (r, { s with dev := { s.dev with reads := rest } })

/-! ## LED mapper (MaschineMikroMk2::set_led and helpers) -/

/-- MaschineMikroMk2::is_rgb_led. -/
def is_rgb_led (led : Nat) : Bool :=
  (led == LED_GROUP) || (LED_PAD13 ≤ led && led ≤ LED_PAD04)

/-- MaschineMikroMk2::set_led.  RGB slots store the three channels each
shifted right by one; the dirty assignment of the source compares the
unshifted channel values with the stored bytes.  Mono slots store the
1-bit reduction.  Valid slot indices stay below LED_COUNT so list set and
getD model array indexing exactly there. -/
def set_led (s : Mk2) (led : Nat) (colour : Colour) : Mk2 :=
  let base := led
  if is_rgb_led led then
    let r := colour.r
    let g := colour.g
    let b := colour.b
    let dirty := (r != s.leds.getD base 0) || (g != s.leds.getD (base + 1) 0)
        || (b != s.leds.getD (base + 2) 0)
    { s with leds_dirty := dirty,
             leds := ((s.leds.set base (r >>> 1)).set (base + 1) (g >>> 1)).set
                 (base + 2) (b >>> 1) }
  else
    let m := colour.as_1bit
    { s with leds_dirty := m != s.leds.getD base 0,
             leds := s.leds.set base m }

/-! ## Button decode (MaschineMikroMk2::process_buttons) -/

/-- Free function is_button_pressed of the device module. -/
def is_button_pressed (buffer : List Nat) (button : Nat) : Bool :=
  let byte_idx := button >>> 3
  (buffer.getD byte_idx 0) &&& (1 <<< (button % 8)) != 0

/-- MaschineMikroMk2::as_device_button. -/
def as_device_button (button : Nat) : Button :=
  match button with
  | 0x01 => Button.Erase
  | 0x02 => Button.Rec
  | 0x03 => Button.Play
  | 0x04 => Button.Grid
  | 0x05 => Button.TransportRight
  | 0x06 => Button.TransportLeft
  | 0x07 => Button.Restart
  | 0x0B => Button.MainEncoder
  | 0x0C => Button.NoteRepeat
  | 0x0D => Button.Sampling
  | 0x0E => Button.Browse
  | 0x0F => Button.Group
  | 0x10 => Button.Main
  | 0x11 => Button.BrowseRight
  | 0x12 => Button.BrowseLeft
  | 0x13 => Button.Nav
  | 0x14 => Button.Control
  | 0x15 => Button.F3
  | 0x16 => Button.F2
  | 0x17 => Button.F1
  | 0x18 => Button.Mute
  | 0x19 => Button.Solo
  | 0x1A => Button.Select
  | 0x1B => Button.Duplicate
  | 0x1C => Button.View
  | 0x1D => Button.PadMode
  | 0x1E => Button.Pattern
  | 0x1F => Button.Scene
  | _ => Button.Unknown

/-- One iteration of the button scan loop of process_buttons, carrying
the driver state and the events added to the context so far. -/
def buttonScanStep (bs : List Nat) (btn : Nat) (acc : Mk2 × List Event) :
    Mk2 × List Event :=
  let s := acc.1
  let evs := acc.2
  let button_pressed := is_button_pressed bs btn
  if button_pressed != s.button_states.getD btn false then
    let s1 := { s with button_states := s.button_states.set btn button_pressed }
    if btn == BUTTON_SHIFT then
      let s2 := { s1 with shift_pressed := button_pressed }
      (set_led s2 LED_SHIFT (if button_pressed then Colour.WHITE else Colour.BLACK), evs)
    else
      (s1, evs ++ [Event.ButtonChange (as_device_button btn) button_pressed
          s1.shift_pressed])
  else
    (s, evs)

/-- MaschineMikroMk2::process_buttons.  Returns the updated state, the
events added to the context, and the error if any. -/
def process_buttons (s : Mk2) (bs : List Nat) : (Mk2 × List Event) × Option Error :=
  if bs.length < 5 then ((s, []), some Error.InvalidReport)
  else
    let scanned := (List.range BUTTON_NONE).foldl
        (fun acc btn => buttonScanStep bs btn acc) (s, [])
    let s1 := scanned.1
    let evs := scanned.2
    let encoder_value := bs.getD 4 0
    if s1.encoder_value != encoder_value then
      let direction :=
        if ((s1.encoder_value < encoder_value) ∨
              ((s1.encoder_value = 0x0f) ∧ (encoder_value = 0x00))) ∧
            ¬((s1.encoder_value = 0x00) ∧ (encoder_value = 0x0f))
        then Direction.Down else Direction.Up
      let s2 := { s1 with encoder_value := encoder_value }
      ((s2, evs ++ [Event.EncoderChange 0 direction s2.shift_pressed]), none)
    else
      ((s1, evs), none)

/-! ## Pad decode (MaschineMikroMk2::process_pads) -/

/-- One two-byte channel of the pad scan loop, at byte offset idx. -/
def padStep (bs : List Nat) (idx : Nat) (acc : Mk2 × List Event) :
    Mk2 × List Event :=
  let s := acc.1
  let evs := acc.2
  let low_byte := bs.getD idx 0
  let high_byte := bs.getD (idx + 1) 0
  let pad := (high_byte &&& 0xF0) >>> 4
  let value := ((high_byte &&& 0x0F) <<< 8) ||| low_byte
  let pressed := decide (value > 512)
  let s1 := { s with pads_data := s.pads_data.set pad value }
  if pressed || s1.pads_status.getD pad false then
    let s2 := { s1 with pads_status := s1.pads_status.set pad pressed }
    (s2, evs ++ [Event.PadChange pad (if pressed then value >>> 4 else 0)
        s2.shift_pressed])
  else
    (s1, evs)

/-- MaschineMikroMk2::process_pads: sixteen channels at byte offsets
0, 2, ..., 30. -/
def process_pads (s : Mk2) (bs : List Nat) : (Mk2 × List Event) × Option Error :=
  if bs.length < 64 then ((s, []), some Error.InvalidReport)
  else
    (((List.range 16).foldl (fun acc i => padStep bs (2 * i) acc) (s, [])), none)

/-! ## Output scheduler (send_frame, send_leds, read, tick) -/

/-- Header of one display chunk (the vec literal in send_frame). -/
def frameHeader (row : Nat) : List Nat :=
  [DISPLAY_ADDR, 0x00, 0x00, row, 0x00, 0x80, 0x00, 0x02, 0x00]

/-- Loop body of send_frame over the given row list, propagating the
first write error.  The Rust slice display.data()[row*128 .. row*128+256]
panics only when the display buffer is shorter than 1024 bytes; the
theorems below assume the driver display built by new (1024 bytes). -/
def sendFrameRows : List Nat → Mk2 → Option Error × Mk2
  | [], s => (none, s)
  | row :: rest, s =>
    let x_offset := row * 128
    let chunk := (s.display.buffer.drop x_offset).take 256
    match devWrite s (frameHeader row ++ chunk) with
    | (some e, s1) => (some e, s1)
    | (none, s1) => sendFrameRows rest s1

/-- MaschineMikroMk2::send_frame: rows 0, 2, 4, 6; the dirty flag is
cleared after the loop, which an error return skips. -/
def send_frame (s : Mk2) : Option Error × Mk2 :=
  let r := if s.display.is_dirty then sendFrameRows [0, 2, 4, 6] s else (none, s)
  match r with
  | (some e, s1) => (some e, s1)
  | (none, s1) => (none, { s1 with display := s1.display.clear_dirty_flag })

/-- MaschineMikroMk2::send_leds: one report of the address byte followed
by the 78 LED bytes; the dirty flag assignment after the conditional is
skipped by an error return. -/
def send_leds (s : Mk2) : Option Error × Mk2 :=
  let r := if s.leds_dirty then devWrite s (LED_ADDR :: s.leds) else (none, s)
  match r with
  | (some e, s1) => (some e, s1)
  | (none, s1) => (none, { s1 with leds_dirty := false })

/-- Loop body of MaschineMikroMk2::read over the remaining iteration
indices.  The 512-byte input buffer persists across iterations; each
read overwrites its first bytes_read bytes. -/
def readLoop (idxs : List Nat) (buffer : List Nat) (acc : Mk2 × List Event) :
    Option Error × (Mk2 × List Event) :=
  match idxs with
  | [] => (none, acc)
  | idx :: rest =>
    match devRead acc.1 with
    | (none, s1) => (some Error.HidAPI, (s1, acc.2))
    | (some bytes, s1) =>
      let bytes_read := bytes.length
      let buffer1 := bytes ++ buffer.drop bytes_read
      if bytes_read > 0 ∧ buffer1.getD 0 0 = 0x01 then
        match process_buttons s1 ((buffer1.drop 1).take 5) with
        | ((s2, delta), none) => readLoop rest buffer1 (s2, acc.2 ++ delta)
        | ((s2, delta), some e) => (some e, (s2, acc.2 ++ delta))
      else if bytes_read > 0 ∧ buffer1.getD 0 0 = 0x20 ∧ idx % 7 = 0 then
        match process_pads s1 (buffer1.drop 1) with
        | ((s2, delta), none) => readLoop rest buffer1 (s2, acc.2 ++ delta)
        | ((s2, delta), some e) => (some e, (s2, acc.2 ++ delta))
      else
        readLoop rest buffer1 (s1, acc.2)

/-- MaschineMikroMk2::read: 32 poll attempts against a zeroed 512-byte
buffer. -/
def readDevice (s : Mk2) : Option Error × (Mk2 × List Event) :=
  readLoop (List.range 32) (List.replicate 512 0) (s, [])

/-- MaschineMikroMk2::tick (impl EventTask): dispatch on the phase
counter, then advance it; an error return skips the advance. -/
def tick (s : Mk2) : Option Error × (Mk2 × List Event) :=
  let r :=
    if s.tick_state = 0 then
      ((send_frame s).1, ((send_frame s).2, ([] : List Event)))
    else if s.tick_state = 1 then
      ((send_leds s).1, ((send_leds s).2, ([] : List Event)))
    else if s.tick_state = 2 then
      readDevice s
    else
      (none, (s, []))
  match r.1 with
  | some e => (some e, r.2)
  | none =>
    (none, ({ r.2.1 with tick_state := (r.2.1.tick_state + 1) % 3 }, r.2.2))

/-! ## Auxiliary definitions used by the statements -/

def dev0 : Dev := ⟨[], [], []⟩

def isEncoderEvent (e : Event) : Bool :=
  match e with
  | Event.EncoderChange _ _ _ => true
  | _ => false

def encoderEvents (evs : List Event) : List Event := evs.filter isEncoderEvent

/-- Events the button scan is specified to emit, stated from the amended
specification wording for comparison with the embedded code: one
ButtonChange for every slot among 1 to 31 whose bit differs from the
snapshot, carrying the new pressed state and the shift value that holds
after the Shift slot (slot 0) has been examined. -/
def specButtonScanEvents (s : Mk2) (bs : List Nat) : List Event :=
  let shiftAfter := if is_button_pressed bs 0 != s.button_states.getD 0 false
    then is_button_pressed bs 0 else s.shift_pressed
  (List.range' 1 31).filterMap fun slot =>
    if is_button_pressed bs slot != s.button_states.getD slot false
    then some (Event.ButtonChange (as_device_button slot) (is_button_pressed bs slot)
        shiftAfter)
    else none

/-- Events emitted by the button scan over the slot list l, against a
snapshot st with shift modifier sh: one ButtonChange per slot whose bit
differs from the snapshot. -/
def scanEvents (bs : List Nat) (st : List Bool) (sh : Bool) (l : List Nat) :
    List Event :=
  l.filterMap fun slot =>
    if is_button_pressed bs slot != st.getD slot false
    then some (Event.ButtonChange (as_device_button slot)
        (is_button_pressed bs slot) sh)
    else none

/-- Byte sequences of the four display chunks built by send_frame. -/
def frameChunks (s : Mk2) : List (List Nat) :=
  [0, 2, 4, 6].map fun row =>
    frameHeader row ++ ((s.display.buffer.drop (row * 128)).take 256)

/-! ## Helper lemmas about list access -/

theorem list_getD_set_self {α : Type} (l : List α) (i : Nat) (v d : α)
    (h : i < l.length) : (l.set i v).getD i d = v := by
  rw [List.getD_eq_getElem?_getD, List.getElem?_set_eq_of_lt v h]
  rfl

theorem list_getD_set_ne {α : Type} (l : List α) (i j : Nat) (v d : α)
    (h : i ≠ j) : (l.set i v).getD j d = l.getD j d := by
  rw [List.getD_eq_getElem?_getD, List.getElem?_set_ne h,
    ← List.getD_eq_getElem?_getD]

/-! ## C9: short reports rejected before any mutation -/

/-- C9: a button payload shorter than 5 bytes or a pad payload shorter
than 64 bytes fails with InvalidReport, leaves the driver state
untouched and adds no event. -/
theorem C9_short_report_rejected (s : Mk2) (bs cs : List Nat)
    (hb : bs.length < 5) (hc : cs.length < 64) :
    process_buttons s bs = ((s, []), some Error.InvalidReport) ∧
    process_pads s cs = ((s, []), some Error.InvalidReport) := by
  constructor
  · unfold process_buttons
    rw [if_pos hb]
  · unfold process_pads
    rw [if_pos hc]

theorem C9_witness :
    ([1, 2, 3] : List Nat).length < 5 ∧ ([] : List Nat).length < 64 ∧
    (process_buttons (newMk2 dev0) [1, 2, 3] =
        ((newMk2 dev0, []), some Error.InvalidReport) ∧
      process_pads (newMk2 dev0) [] =
        ((newMk2 dev0, []), some Error.InvalidReport)) :=
  ⟨by decide, by decide,
    C9_short_report_rejected (newMk2 dev0) [1, 2, 3] [] (by decide) (by decide)⟩

/-! ## C1: the set_led dirty comparison -/

/-- C1: the claim fails on the code.  At the RGB Group slot the dirty
assignment of set_led compares the unshifted channel values with the
stored shifted bytes: a second identical write, whose computed bytes
(1, 0, 0) already equal the stored bytes, still sets the flag, while a
write of colour (1, 0, 0), whose computed bytes (0, 0, 0) differ from
the stored (1, 0, 0), leaves the flag cleared. -/
theorem C1_set_led_dirty_miscompare :
    (set_led (newMk2 dev0) LED_GROUP ⟨2, 0, 0⟩).leds.getD LED_GROUP 0 = 1 ∧
    (set_led (newMk2 dev0) LED_GROUP ⟨2, 0, 0⟩).leds.getD (LED_GROUP + 1) 0 = 0 ∧
    (set_led (newMk2 dev0) LED_GROUP ⟨2, 0, 0⟩).leds.getD (LED_GROUP + 2) 0 = 0 ∧
    (set_led (set_led (newMk2 dev0) LED_GROUP ⟨2, 0, 0⟩) LED_GROUP
        ⟨2, 0, 0⟩).leds_dirty = true ∧
    (set_led (set_led (newMk2 dev0) LED_GROUP ⟨2, 0, 0⟩) LED_GROUP
        ⟨1, 0, 0⟩).leds_dirty = false := by
  decide

/-! ## C10: a no-change mono write overwrites a pending dirty flag -/

/-- C10: for a mono slot, a set_led call whose computed 1-bit byte
equals the stored byte assigns leds_dirty to false, whatever its
previous value was. -/
theorem C10_mono_write_overwrites_dirty (s : Mk2) (led : Nat) (colour : Colour)
    (hmono : is_rgb_led led = false)
    (hsame : colour.as_1bit = s.leds.getD led 0) :
    (set_led s led colour).leds_dirty = false := by
  unfold set_led
  simp only [hmono, Bool.false_eq_true, if_false, hsame, bne_self_eq_false]

theorem C10_witness :
    is_rgb_led 0 = false ∧
    Colour.BLACK.as_1bit = ({ newMk2 dev0 with leds_dirty := true } : Mk2).leds.getD 0 0 ∧
    (set_led { newMk2 dev0 with leds_dirty := true } 0 Colour.BLACK).leds_dirty = false :=
  ⟨by decide, by decide,
    C10_mono_write_overwrites_dirty { newMk2 dev0 with leds_dirty := true } 0
      Colour.BLACK (by decide) (by decide)⟩

/-! ## C2: pixel bounds are off by one -/

/-- C2: the claim fails on the code.  The bounds tests of pixel and
set_pixel accept x = width and y = height: on the 128 by 64 canvas,
pixel 0 64 and set_pixel 0 64 index byte 1024 of the 1024-byte buffer
(a panic, modelled none) instead of returning no value or ignoring the
call, and set_pixel 128 0 writes buffer byte 128. -/
theorem C2_pixel_bounds_off_by_one :
    (MonochromeCanvas.new 128 64).pixel 0 64 = none ∧
    (MonochromeCanvas.new 128 64).set_pixel 0 64 Pixel.On = none ∧
    ((MonochromeCanvas.new 128 64).set_pixel 128 0 Pixel.On).map
        (fun r => r.buffer.getD 128 0) = some 1 ∧
    (MonochromeCanvas.new 128 64).buffer.getD 128 0 = 0 := by
  decide

/-! ## C5: three mutating canvas operations never set the dirty flag -/

/-- C5: the claim fails on the code.  After clear_dirty_flag, invert_row,
invert_row_slice and copy_from each change the backing buffer while
is_dirty stays false. -/
theorem C5_mutations_leave_dirty_clear :
    ((MonochromeCanvas.new 8 8).clear_dirty_flag.invert_row 0).map
        (fun r => (r.is_dirty, r.buffer.getD 0 0)) = some (false, 0xFF) ∧
    ((MonochromeCanvas.new 8 8).clear_dirty_flag.invert_row_slice 0 0 4).map
        (fun r => (r.is_dirty, r.buffer.getD 0 0)) = some (false, 0xFF) ∧
    ((MonochromeCanvas.new 8 8).clear_dirty_flag.copy_from
        ⟨8, 8, [1, 2, 3, 4, 5, 6, 7, 8], true⟩).is_dirty = false ∧
    ((MonochromeCanvas.new 8 8).clear_dirty_flag.copy_from
        ⟨8, 8, [1, 2, 3, 4, 5, 6, 7, 8], true⟩).buffer = [1, 2, 3, 4, 5, 6, 7, 8] ∧
    (MonochromeCanvas.new 8 8).clear_dirty_flag.buffer.getD 0 0 = 0 := by
  decide

/-! ## C7: pad channel decoding -/

/-- C7: one two-byte pad channel decodes the pad id from the high nibble
of the second byte and the 12-bit raw value from its low nibble and the
first byte, with pressed meaning a value above 512; the raw value is
always stored; a PadChange fires iff the pad is pressed or was latched,
the latch is then updated, and the velocity is the top 8 bits of the raw
value when pressed, else 0.  The closing conjuncts check the two byte
pairs named by the claim. -/
theorem C7_pad_channel_decode (s : Mk2) (evs : List Event) (bs : List Nat)
    (idx low high pad value : Nat) (pressed : Bool)
    (hdata : s.pads_data.length = 16) (hstatus : s.pads_status.length = 16)
    (hlow : low = bs.getD idx 0) (hhigh : high = bs.getD (idx + 1) 0)
    (hpad : pad = (high &&& 0xF0) >>> 4)
    (hvalue : value = ((high &&& 0x0F) <<< 8) ||| low)
    (hpressed : pressed = decide (value > 512)) :
    (padStep bs idx (s, evs)).1.pads_data.getD pad 0 = value ∧
    ((pressed || s.pads_status.getD pad false) = true →
      (padStep bs idx (s, evs)).2 =
        evs ++ [Event.PadChange pad (if pressed then value >>> 4 else 0)
          s.shift_pressed] ∧
      (padStep bs idx (s, evs)).1.pads_status.getD pad false = pressed) ∧
    ((pressed || s.pads_status.getD pad false) = false →
      (padStep bs idx (s, evs)).2 = evs ∧
      (padStep bs idx (s, evs)).1.pads_status = s.pads_status) ∧
    (padStep [0xFF, 0x2F] 0 (newMk2 dev0, [])).2 =
      [Event.PadChange 2 0xFF false] ∧
    ((0x2F : Nat) &&& 0xF0) >>> 4 = 2 ∧
    (((0x2F : Nat) &&& 0x0F) <<< 8) ||| 0xFF = 0xFFF ∧
    (padStep [0x00, 0x21] 0 (newMk2 dev0, [])).2 = [] ∧
    ((0x21 : Nat) &&& 0xF0) >>> 4 = 2 ∧
    (((0x21 : Nat) &&& 0x0F) <<< 8) ||| 0x00 = 256 ∧
    (padStep [0x00, 0x21] 0 (newMk2 dev0, [])).1.pads_data.getD 2 0 = 256 := by
  have hband : high &&& 0xF0 ≤ 0xF0 := Nat.and_le_right
  have hpadlt : pad < 16 := by
    rw [hpad, Nat.shiftRight_eq_div_pow]
    exact Nat.lt_succ_of_le (le_trans (Nat.div_le_div_right hband) (by norm_num))
  subst hlow hhigh hpad hvalue hpressed
  refine ⟨?_, ?_, ?_, by decide, by decide, by decide, by decide, by decide,
    by decide, by decide⟩
  · simp only [padStep]
    split
    · exact list_getD_set_self _ _ _ _ (hdata ▸ hpadlt)
    · exact list_getD_set_self _ _ _ _ (hdata ▸ hpadlt)
  · intro hcond
    simp only [padStep]
    rw [if_pos hcond]
    exact ⟨rfl, list_getD_set_self _ _ _ _ (hstatus ▸ hpadlt)⟩
  · intro hcond
    simp only [padStep]
    rw [if_neg (by rw [hcond]; exact Bool.false_ne_true)]
    exact ⟨rfl, rfl⟩

theorem C7_witness :
    (newMk2 dev0).pads_data.length = 16 ∧
    (newMk2 dev0).pads_status.length = 16 ∧
    (padStep [0xFF, 0x2F] 0 (newMk2 dev0, [])).1.pads_data.getD 2 0 = 0xFFF :=
  ⟨by decide, by decide,
    (C7_pad_channel_decode (newMk2 dev0) [] [0xFF, 0x2F] 0 0xFF 0x2F 2 0xFFF true
      (by decide) (by decide) (by decide) (by decide) (by decide) (by decide)
      (by decide)).1⟩

/-! ## Facts about the button scan fold -/

theorem buttonScanStep_snd (bs : List Nat) (a : Nat) (p : Mk2 × List Event) :
    (buttonScanStep bs a p).2 = p.2 ∨
    ∃ b pr sh, (buttonScanStep bs a p).2 =
      p.2 ++ [Event.ButtonChange b pr sh] := by
  unfold buttonScanStep
  dsimp only
  split
  · split
    · exact Or.inl rfl
    · exact Or.inr ⟨_, _, _, rfl⟩
  · exact Or.inl rfl

theorem buttonScanStep_preserved (bs : List Nat) (a : Nat) (p : Mk2 × List Event) :
    (buttonScanStep bs a p).1.encoder_value = p.1.encoder_value ∧
    (buttonScanStep bs a p).1.tick_state = p.1.tick_state := by
  unfold buttonScanStep set_led
  dsimp only
  split
  · split
    · split <;> exact ⟨rfl, rfl⟩
    · exact ⟨rfl, rfl⟩
  · exact ⟨rfl, rfl⟩

theorem scanFold_encoderEvents (bs : List Nat) (l : List Nat) :
    ∀ p : Mk2 × List Event,
      encoderEvents
          ((l.foldl (fun acc btn => buttonScanStep bs btn acc) p).2) =
        encoderEvents p.2 := by
  induction l with
  | nil => intro p; rfl
  | cons a l ih =>
    intro p
    rw [List.foldl_cons, ih (buttonScanStep bs a p)]
    rcases buttonScanStep_snd bs a p with h | ⟨b, pr, sh, h⟩
    · rw [h]
    · rw [h]
      simp [encoderEvents, List.filter_append, isEncoderEvent]

theorem scanFold_preserved (bs : List Nat) (l : List Nat) :
    ∀ p : Mk2 × List Event,
      ((l.foldl (fun acc btn => buttonScanStep bs btn acc) p).1).encoder_value =
        p.1.encoder_value ∧
      ((l.foldl (fun acc btn => buttonScanStep bs btn acc) p).1).tick_state =
        p.1.tick_state := by
  induction l with
  | nil => intro p; exact ⟨rfl, rfl⟩
  | cons a l ih =>
    intro p
    rw [List.foldl_cons]
    have h1 := ih (buttonScanStep bs a p)
    have h2 := buttonScanStep_preserved bs a p
    exact ⟨h1.1.trans h2.1, h1.2.trans h2.2⟩

/-! ## C6: encoder change decoding -/

/-- C6: when byte 4 of a button report differs from the stored encoder
value, exactly one EncoderChange is emitted, Down iff the new value is
numerically greater or the transition is the 15 to 0 wrap, except for
the explicit 0 to 15 wrap which (with all other remaining cases) is Up;
an unchanged byte emits none.  The closing conjuncts check the 14, 15, 0
sequence (two Down events) and the 0 to 15 transition (one Up event). -/
theorem C6_encoder_direction (s : Mk2) (bs : List Nat) (h5 : 5 ≤ bs.length) :
    (bs.getD 4 0 = s.encoder_value →
      encoderEvents (process_buttons s bs).1.2 = [] ∧
      (process_buttons s bs).1.1.encoder_value = s.encoder_value) ∧
    (bs.getD 4 0 ≠ s.encoder_value →
      (process_buttons s bs).1.1.encoder_value = bs.getD 4 0 ∧
      encoderEvents (process_buttons s bs).1.2 =
        [Event.EncoderChange 0
          (if ((s.encoder_value < bs.getD 4 0) ∨
                ((s.encoder_value = 0x0f) ∧ (bs.getD 4 0 = 0x00))) ∧
              ¬((s.encoder_value = 0x00) ∧ (bs.getD 4 0 = 0x0f))
           then Direction.Down else Direction.Up)
          (process_buttons s bs).1.1.shift_pressed]) ∧
    (process_buttons { newMk2 dev0 with encoder_value := 14 }
        [0, 0, 0, 0, 15]).1.2 = [Event.EncoderChange 0 Direction.Down false] ∧
    (process_buttons
        (process_buttons { newMk2 dev0 with encoder_value := 14 }
          [0, 0, 0, 0, 15]).1.1 [0, 0, 0, 0, 0]).1.2 =
      [Event.EncoderChange 0 Direction.Down false] ∧
    (process_buttons (newMk2 dev0) [0, 0, 0, 0, 15]).1.2 =
      [Event.EncoderChange 0 Direction.Up false] := by
  refine ⟨?_, ?_, by decide, by decide, by decide⟩
  · intro hv
    unfold process_buttons
    rw [if_neg (Nat.not_lt.mpr h5)]
    dsimp only
    generalize hscan : (List.range BUTTON_NONE).foldl
      (fun acc btn => buttonScanStep bs btn acc) (s, ([] : List Event)) = q
    have hq1 : q.1.encoder_value = s.encoder_value := by
      rw [← hscan]
      exact (scanFold_preserved bs (List.range BUTTON_NONE) (s, [])).1
    have hq2 : encoderEvents q.2 = [] := by
      rw [← hscan]
      exact scanFold_encoderEvents bs (List.range BUTTON_NONE) (s, [])
    rw [hq1, hv]
    simp only [bne_self_eq_false, Bool.false_eq_true, if_false]
    exact ⟨hq2, hq1⟩
  · intro hv
    unfold process_buttons
    rw [if_neg (Nat.not_lt.mpr h5)]
    dsimp only
    generalize hscan : (List.range BUTTON_NONE).foldl
      (fun acc btn => buttonScanStep bs btn acc) (s, ([] : List Event)) = q
    have hq1 : q.1.encoder_value = s.encoder_value := by
      rw [← hscan]
      exact (scanFold_preserved bs (List.range BUTTON_NONE) (s, [])).1
    have hq2 : List.filter isEncoderEvent q.2 = [] := by
      have h := scanFold_encoderEvents bs (List.range BUTTON_NONE) (s, [])
      rw [hscan] at h
      exact h
    rw [hq1]
    rw [if_pos (bne_iff_ne.mpr (fun h => hv h.symm))]
    refine ⟨rfl, ?_⟩
    simp only [encoderEvents, List.filter_append, hq2, List.nil_append,
      List.filter, isEncoderEvent]

theorem C6_witness :
    (5 : Nat) ≤ ([0, 0, 0, 0, 15] : List Nat).length ∧
    ([0, 0, 0, 0, 15] : List Nat).getD 4 0 ≠ (newMk2 dev0).encoder_value ∧
    (process_buttons (newMk2 dev0) [0, 0, 0, 0, 15]).1.1.encoder_value =
      ([0, 0, 0, 0, 15] : List Nat).getD 4 0 :=
  ⟨by decide, by decide,
    ((C6_encoder_direction (newMk2 dev0) [0, 0, 0, 0, 15] (by decide)).2.1
      (by decide)).1⟩

/-! ## Preservation of the phase counter across the phase bodies -/

theorem process_buttons_tick_state (s : Mk2) (bs : List Nat) :
    (process_buttons s bs).1.1.tick_state = s.tick_state := by
  unfold process_buttons
  split
  · rfl
  · dsimp only
    generalize hscan : (List.range BUTTON_NONE).foldl
      (fun acc btn => buttonScanStep bs btn acc) (s, ([] : List Event)) = q
    have hq := (scanFold_preserved bs (List.range BUTTON_NONE) (s, [])).2
    rw [hscan] at hq
    split
    · exact hq
    · exact hq

theorem padStep_tick_state (bs : List Nat) (idx : Nat) (p : Mk2 × List Event) :
    (padStep bs idx p).1.tick_state = p.1.tick_state := by
  unfold padStep
  dsimp only
  split <;> rfl

theorem padFold_tick_state (bs : List Nat) (l : List Nat) :
    ∀ p : Mk2 × List Event,
      ((l.foldl (fun acc i => padStep bs (2 * i) acc) p).1).tick_state =
        p.1.tick_state := by
  induction l with
  | nil => intro p; rfl
  | cons a l ih =>
    intro p
    rw [List.foldl_cons]
    exact (ih (padStep bs (2 * a) p)).trans (padStep_tick_state bs (2 * a) p)

theorem process_pads_tick_state (s : Mk2) (bs : List Nat) :
    (process_pads s bs).1.1.tick_state = s.tick_state := by
  unfold process_pads
  split
  · rfl
  · exact padFold_tick_state bs (List.range 16) (s, [])

theorem devWrite_preserved (s : Mk2) (bytes : List Nat) :
    (devWrite s bytes).2.display = s.display ∧
    (devWrite s bytes).2.leds_dirty = s.leds_dirty ∧
    (devWrite s bytes).2.tick_state = s.tick_state ∧
    (devWrite s bytes).2.leds = s.leds := by
  unfold devWrite
  split
  · exact ⟨rfl, rfl, rfl, rfl⟩
  · split <;> exact ⟨rfl, rfl, rfl, rfl⟩

theorem devRead_preserved (s : Mk2) :
    (devRead s).2.tick_state = s.tick_state := by
  unfold devRead
  split <;> rfl

theorem sendFrameRows_preserved (rows : List Nat) :
    ∀ s : Mk2,
      (sendFrameRows rows s).2.display = s.display ∧
      (sendFrameRows rows s).2.leds_dirty = s.leds_dirty ∧
      (sendFrameRows rows s).2.tick_state = s.tick_state := by
  induction rows with
  | nil => intro s; exact ⟨rfl, rfl, rfl⟩
  | cons row rest ih =>
    intro s
    unfold sendFrameRows
    dsimp only
    split
    next e s1 heq =>
      have hp := devWrite_preserved s
        (frameHeader row ++ ((s.display.buffer.drop (row * 128)).take 256))
      rw [heq] at hp
      exact ⟨hp.1, hp.2.1, hp.2.2.1⟩
    next s1 heq =>
      have hp := devWrite_preserved s
        (frameHeader row ++ ((s.display.buffer.drop (row * 128)).take 256))
      rw [heq] at hp
      have hr := ih s1
      exact ⟨hr.1.trans hp.1, hr.2.1.trans hp.2.1, hr.2.2.trans hp.2.2.1⟩

theorem send_frame_tick_state (s : Mk2) :
    (send_frame s).2.tick_state = s.tick_state := by
  unfold send_frame
  dsimp only
  split
  next e s1 heq =>
    by_cases hd : s.display.is_dirty = true
    · rw [if_pos hd] at heq
      have hp := (sendFrameRows_preserved [0, 2, 4, 6] s).2.2
      rw [heq] at hp
      exact hp
    · rw [if_neg hd] at heq
      cases heq
  next s1 heq =>
    by_cases hd : s.display.is_dirty = true
    · rw [if_pos hd] at heq
      have hp := (sendFrameRows_preserved [0, 2, 4, 6] s).2.2
      rw [heq] at hp
      exact hp
    · rw [if_neg hd] at heq
      cases heq
      rfl

theorem send_leds_tick_state (s : Mk2) :
    (send_leds s).2.tick_state = s.tick_state := by
  unfold send_leds
  dsimp only
  split
  next e s1 heq =>
    by_cases hd : s.leds_dirty = true
    · rw [if_pos hd] at heq
      have hp := (devWrite_preserved s (LED_ADDR :: s.leds)).2.2.1
      rw [heq] at hp
      exact hp
    · rw [if_neg hd] at heq
      cases heq
  next s1 heq =>
    by_cases hd : s.leds_dirty = true
    · rw [if_pos hd] at heq
      have hp := (devWrite_preserved s (LED_ADDR :: s.leds)).2.2.1
      rw [heq] at hp
      exact hp
    · rw [if_neg hd] at heq
      cases heq
      rfl

theorem readLoop_tick_state (idxs : List Nat) :
    ∀ (buffer : List Nat) (p : Mk2 × List Event),
      (readLoop idxs buffer p).2.1.tick_state = p.1.tick_state := by
  induction idxs with
  | nil => intro buffer p; rfl
  | cons idx rest ih =>
    intro buffer p
    unfold readLoop
    dsimp only
    split
    next s1 heq =>
      have hp := devRead_preserved p.1
      rw [heq] at hp
      exact hp
    next bytes s1 heq =>
      have hp := devRead_preserved p.1
      rw [heq] at hp
      split
      · split
        next s2 delta heq2 =>
          have hb := process_buttons_tick_state s1
            (((bytes ++ buffer.drop bytes.length).drop 1).take 5)
          rw [heq2] at hb
          exact (ih _ _).trans (hb.trans hp)
        next s2 delta e heq2 =>
          have hb := process_buttons_tick_state s1
            (((bytes ++ buffer.drop bytes.length).drop 1).take 5)
          rw [heq2] at hb
          exact hb.trans hp
      · split
        · split
          next s2 delta heq2 =>
            have hb := process_pads_tick_state s1
              ((bytes ++ buffer.drop bytes.length).drop 1)
            rw [heq2] at hb
            exact (ih _ _).trans (hb.trans hp)
          next s2 delta e heq2 =>
            have hb := process_pads_tick_state s1
              ((bytes ++ buffer.drop bytes.length).drop 1)
            rw [heq2] at hb
            exact hb.trans hp
        · exact (ih _ _).trans hp

theorem readDevice_tick_state (s : Mk2) :
    (readDevice s).2.1.tick_state = s.tick_state := by
  unfold readDevice
  exact readLoop_tick_state (List.range 32) (List.replicate 512 0) (s, [])

/-! ## C4: phase advance -/

/-- C4 (amended): a tick call that returns success advances the phase
counter by one modulo 3, while a tick call that returns an error leaves
the phase counter unchanged. -/
theorem C4_tick_phase_advance (s : Mk2) :
    ((tick s).1 = none → (tick s).2.1.tick_state = (s.tick_state + 1) % 3) ∧
    (∀ e, (tick s).1 = some e → (tick s).2.1.tick_state = s.tick_state) := by
  unfold tick
  dsimp only
  by_cases h0 : s.tick_state = 0
  · rw [if_pos h0]
    constructor
    · intro hnone
      cases he : (send_frame s).1 with
      | some e =>
        rw [he] at hnone
        simp at hnone
      | none =>
        dsimp only
        rw [send_frame_tick_state s]
    · intro e he
      cases he2 : (send_frame s).1 with
      | some e2 =>
        dsimp only
        exact send_frame_tick_state s
      | none =>
        rw [he2] at he
        simp at he
  · rw [if_neg h0]
    by_cases h1 : s.tick_state = 1
    · rw [if_pos h1]
      constructor
      · intro hnone
        cases he : (send_leds s).1 with
        | some e =>
          rw [he] at hnone
          simp at hnone
        | none =>
          dsimp only
          rw [send_leds_tick_state s]
      · intro e he
        cases he2 : (send_leds s).1 with
        | some e2 =>
          dsimp only
          exact send_leds_tick_state s
        | none =>
          rw [he2] at he
          simp at he
    · rw [if_neg h1]
      by_cases h2 : s.tick_state = 2
      · rw [if_pos h2]
        constructor
        · intro hnone
          cases he : (readDevice s).1 with
          | some e =>
            rw [he] at hnone
            simp at hnone
          | none =>
            dsimp only
            rw [readDevice_tick_state s]
        · intro e he
          cases he2 : (readDevice s).1 with
          | some e2 =>
            dsimp only
            exact readDevice_tick_state s
          | none =>
            rw [he2] at he
            simp at he
      · rw [if_neg h2]
        exact ⟨fun _ => rfl, fun e he => by cases he⟩

/-- C4 counterexample: with a transport whose first write fails and the
fresh driver state (display dirty, phase 0), tick returns the transport
error and leaves the phase counter at 0 instead of advancing it to
(0 + 1) % 3 = 1. -/
theorem C4_counterexample :
    (tick (newMk2 ⟨[false], [], []⟩)).1 = some Error.HidAPI ∧
    (tick (newMk2 ⟨[false], [], []⟩)).2.1.tick_state = 0 ∧
    ((newMk2 ⟨[false], [], []⟩).tick_state + 1) % 3 = 1 := by
  decide

theorem C4_witness :
    ((tick { newMk2 dev0 with tick_state := 1, leds_dirty := false }).1 = none ∧
      (tick { newMk2 dev0 with tick_state := 1, leds_dirty := false }).2.1.tick_state =
        (({ newMk2 dev0 with tick_state := 1, leds_dirty := false } : Mk2).tick_state + 1) % 3) ∧
    ((tick (newMk2 ⟨[false, true], [], []⟩)).1 = some Error.HidAPI ∧
      (tick (newMk2 ⟨[false, true], [], []⟩)).2.1.tick_state =
        (newMk2 ⟨[false, true], [], []⟩).tick_state) :=
  ⟨⟨by decide,
      (C4_tick_phase_advance { newMk2 dev0 with tick_state := 1, leds_dirty := false }).1
        (by decide)⟩,
    ⟨by decide,
      (C4_tick_phase_advance (newMk2 ⟨[false, true], [], []⟩)).2 Error.HidAPI
        (by decide)⟩⟩

/-! ## C8: frame and LED transmission retry semantics -/

theorem devWrite_ok_written (s : Mk2) (bytes : List Nat)
    (h : (devWrite s bytes).1 = none) :
    (devWrite s bytes).2.dev.written = s.dev.written ++ [bytes] := by
  unfold devWrite at h ⊢
  revert h
  cases s.dev.outcomes with
  | nil => intro _; rfl
  | cons w rest =>
    cases w
    · intro h
      simp at h
    · intro _
      rfl

theorem sendFrameRows_ok_written (rows : List Nat) :
    ∀ s : Mk2, (sendFrameRows rows s).1 = none →
      (sendFrameRows rows s).2.dev.written =
        s.dev.written ++ rows.map
          (fun row => frameHeader row ++
            ((s.display.buffer.drop (row * 128)).take 256)) := by
  induction rows with
  | nil =>
    intro s _
    simp [sendFrameRows]
  | cons row rest ih =>
    intro s h
    unfold sendFrameRows at h ⊢
    dsimp only at h ⊢
    rcases hw : devWrite s
        (frameHeader row ++ ((s.display.buffer.drop (row * 128)).take 256))
      with ⟨e, s1⟩
    rw [hw] at h
    cases e with
    | some err => simp at h
    | none =>
      dsimp only at h ⊢
      have hlog : s1.dev.written = s.dev.written ++
          [frameHeader row ++ ((s.display.buffer.drop (row * 128)).take 256)] := by
        have h1 := devWrite_ok_written s
          (frameHeader row ++ ((s.display.buffer.drop (row * 128)).take 256))
          (by rw [hw])
        rw [hw] at h1
        exact h1
      have hdisp : s1.display = s.display := by
        have h1 := (devWrite_preserved s
          (frameHeader row ++ ((s.display.buffer.drop (row * 128)).take 256))).1
        rw [hw] at h1
        exact h1
      rw [ih s1 h, hlog, hdisp]
      simp

theorem send_frame_ok (s : Mk2) (hd : s.display.dirty = true)
    (h : (send_frame s).1 = none) :
    (send_frame s).2.display.dirty = false ∧
    (send_frame s).2.dev.written = s.dev.written ++ frameChunks s := by
  unfold send_frame at h ⊢
  dsimp only at h ⊢
  rw [if_pos (show s.display.is_dirty = true from hd)] at h ⊢
  rcases hr : sendFrameRows [0, 2, 4, 6] s with ⟨e, s1⟩
  rw [hr] at h
  cases e with
  | some err => simp at h
  | none =>
    refine ⟨rfl, ?_⟩
    have hlog := sendFrameRows_ok_written [0, 2, 4, 6] s (by rw [hr])
    rw [hr] at hlog
    exact hlog

theorem send_frame_fail (s : Mk2) (hd : s.display.dirty = true) (e : Error)
    (h : (send_frame s).1 = some e) :
    (send_frame s).2.display.dirty = true := by
  unfold send_frame at h ⊢
  dsimp only at h ⊢
  rw [if_pos (show s.display.is_dirty = true from hd)] at h ⊢
  rcases hr : sendFrameRows [0, 2, 4, 6] s with ⟨e2, s1⟩
  rw [hr] at h
  cases e2 with
  | some err =>
    have hdisp : s1.display = s.display := by
      have h1 := (sendFrameRows_preserved [0, 2, 4, 6] s).1
      rw [hr] at h1
      exact h1
    show s1.display.dirty = true
    rw [hdisp]
    exact hd
  | none => simp at h

theorem send_leds_ok (s : Mk2) (hl : s.leds_dirty = true)
    (h : (send_leds s).1 = none) :
    (send_leds s).2.leds_dirty = false ∧
    (send_leds s).2.dev.written = s.dev.written ++ [LED_ADDR :: s.leds] := by
  unfold send_leds at h ⊢
  dsimp only at h ⊢
  rw [if_pos hl] at h ⊢
  rcases hw : devWrite s (LED_ADDR :: s.leds) with ⟨e, s1⟩
  rw [hw] at h
  cases e with
  | some err => simp at h
  | none =>
    refine ⟨rfl, ?_⟩
    have hlog := devWrite_ok_written s (LED_ADDR :: s.leds) (by rw [hw])
    rw [hw] at hlog
    exact hlog

theorem send_leds_fail (s : Mk2) (hl : s.leds_dirty = true) (e : Error)
    (h : (send_leds s).1 = some e) :
    (send_leds s).2.leds_dirty = true := by
  unfold send_leds at h ⊢
  dsimp only at h ⊢
  rw [if_pos hl] at h ⊢
  rcases hw : devWrite s (LED_ADDR :: s.leds) with ⟨e2, s1⟩
  rw [hw] at h
  cases e2 with
  | some err =>
    have hp : s1.leds_dirty = s.leds_dirty := by
      have h1 := (devWrite_preserved s (LED_ADDR :: s.leds)).2.1
      rw [hw] at h1
      exact h1
    show s1.leds_dirty = true
    rw [hp]
    exact hl
  | none => simp at h

/-- C8: with the display and LED tables dirty, the display dirty flag
clears only when all four chunks (9-byte header plus 256 pixel bytes
for rows 0, 2, 4 and 6) were written, the LED dirty flag clears only
when the report of the address byte plus all 78 LED bytes was written,
and a write failure is returned from tick with the respective flag
still set. -/
theorem C8_dirty_flags_clear_only_on_success (s : Mk2)
    (hd : s.display.dirty = true) (hl : s.leds_dirty = true)
    (hbuf : s.display.buffer.length = 1024) (hleds : s.leds.length = 78) :
    ((send_frame s).1 = none →
      (send_frame s).2.display.dirty = false ∧
      (send_frame s).2.dev.written = s.dev.written ++ frameChunks s) ∧
    (∀ e, (send_frame s).1 = some e → (send_frame s).2.display.dirty = true) ∧
    (frameChunks s).length = 4 ∧
    (∀ c ∈ frameChunks s, c.length = 9 + 256) ∧
    ((send_leds s).1 = none →
      (send_leds s).2.leds_dirty = false ∧
      (send_leds s).2.dev.written = s.dev.written ++ [LED_ADDR :: s.leds]) ∧
    (∀ e, (send_leds s).1 = some e → (send_leds s).2.leds_dirty = true) ∧
    (LED_ADDR :: s.leds).length = 1 + 78 ∧
    (s.tick_state = 0 → ∀ e, (send_frame s).1 = some e →
      (tick s).1 = some e ∧ (tick s).2.1.display.dirty = true) ∧
    (s.tick_state = 1 → ∀ e, (send_leds s).1 = some e →
      (tick s).1 = some e ∧ (tick s).2.1.leds_dirty = true) := by
  refine ⟨send_frame_ok s hd, send_frame_fail s hd, by simp [frameChunks],
    ?_, send_leds_ok s hl, send_leds_fail s hl, by simp [hleds], ?_, ?_⟩
  · intro c hc
    simp only [frameChunks, List.mem_map] at hc
    obtain ⟨row, hrow, rfl⟩ := hc
    have hrows : row = 0 ∨ row = 2 ∨ row = 4 ∨ row = 6 := by
      simpa using hrow
    rcases hrows with rfl | rfl | rfl | rfl <;>
      simp [frameHeader, hbuf]
  · intro h0 e he
    unfold tick
    dsimp only
    rw [if_pos h0, he]
    exact ⟨rfl, send_frame_fail s hd e he⟩
  · intro h1 e he
    unfold tick
    dsimp only
    rw [if_neg (by omega), if_pos h1, he]
    exact ⟨rfl, send_leds_fail s hl e he⟩

theorem C8_witness :
    ((newMk2 ⟨[true, true, true, true, true], [], []⟩).display.dirty = true ∧
      (newMk2 ⟨[true, true, true, true, true], [], []⟩).leds_dirty = true ∧
      (newMk2 ⟨[true, true, true, true, true], [], []⟩).display.buffer.length = 1024 ∧
      (newMk2 ⟨[true, true, true, true, true], [], []⟩).leds.length = 78) ∧
    ((send_frame (newMk2 ⟨[true, true, true, true, true], [], []⟩)).1 = none ∧
      (send_frame (newMk2 ⟨[true, true, true, true, true], [], []⟩)).2.display.dirty =
        false) :=
  ⟨⟨by decide, by decide, by decide, by decide⟩,
    ⟨by decide,
      ((C8_dirty_flags_clear_only_on_success
          (newMk2 ⟨[true, true, true, true, true], [], []⟩)
          (by decide) (by decide) (by decide) (by decide)).1 (by decide)).1⟩⟩

/-! ## C3: the button scan -/

theorem encDelta_exists {evs spec tail : List Event} (h : evs = spec)
    (ht : ∀ e ∈ tail, isEncoderEvent e = true) :
    ∃ d, evs ++ tail = spec ++ d ∧ ∀ e ∈ d, isEncoderEvent e = true :=
  ⟨tail, by rw [h], ht⟩

theorem set_led_preserves (s : Mk2) (led : Nat) (c : Colour) :
    (set_led s led c).button_states = s.button_states ∧
    (set_led s led c).shift_pressed = s.shift_pressed := by
  unfold set_led
  dsimp only
  split <;> exact ⟨rfl, rfl⟩

theorem scanEvents_set_ne (bs : List Nat) (st : List Bool) (a : Nat) (v : Bool)
    (sh : Bool) (l : List Nat) (ha : a ∉ l) :
    scanEvents bs (st.set a v) sh l = scanEvents bs st sh l := by
  unfold scanEvents
  exact List.filterMap_congr fun x hx => by
    rw [list_getD_set_ne st a x v false (fun h => ha (h ▸ hx))]

theorem scanFold_char (bs : List Nat) :
    ∀ (l : List Nat) (s : Mk2) (evs : List Event),
      (∀ x ∈ l, x ≠ 0) → l.Nodup →
      (∀ x ∈ l, x < s.button_states.length) →
      ((l.foldl (fun acc btn => buttonScanStep bs btn acc) (s, evs)).2 =
        evs ++ scanEvents bs s.button_states s.shift_pressed l) ∧
      (∀ j, ((l.foldl (fun acc btn => buttonScanStep bs btn acc)
            (s, evs)).1).button_states.getD j false =
        if j ∈ l then is_button_pressed bs j
        else s.button_states.getD j false) ∧
      ((l.foldl (fun acc btn => buttonScanStep bs btn acc)
          (s, evs)).1).shift_pressed = s.shift_pressed ∧
      ((l.foldl (fun acc btn => buttonScanStep bs btn acc)
          (s, evs)).1).button_states.length = s.button_states.length := by
  intro l
  induction l with
  | nil =>
    intro s evs _ _ _
    refine ⟨by simp [scanEvents], ?_, rfl, rfl⟩
    intro j
    simp
  | cons a l ih =>
    intro s evs hnz hnd hlt
    have ha0 : a ≠ 0 := hnz a (List.mem_cons_self a l)
    have halt : a < s.button_states.length := hlt a (List.mem_cons_self a l)
    have hanotin : a ∉ l := (List.nodup_cons.mp hnd).1
    have hndl : l.Nodup := (List.nodup_cons.mp hnd).2
    have hnzl : ∀ x ∈ l, x ≠ 0 := fun x hx => hnz x (List.mem_cons_of_mem a hx)
    rw [List.foldl_cons]
    by_cases hch : is_button_pressed bs a = s.button_states.getD a false
    · have hstep : buttonScanStep bs a (s, evs) = (s, evs) := by
        unfold buttonScanStep
        dsimp only
        rw [if_neg (by simp [hch])]
      rw [hstep]
      obtain ⟨h1, h2, h3, h4⟩ := ih s evs hnzl hndl
        (fun x hx => hlt x (List.mem_cons_of_mem a hx))
      refine ⟨?_, ?_, h3, h4⟩
      · rw [h1]
        have hnone : scanEvents bs s.button_states s.shift_pressed (a :: l) =
            scanEvents bs s.button_states s.shift_pressed l := by
          unfold scanEvents
          rw [List.filterMap_cons_none]
          simp [hch]
        rw [hnone]
      · intro j
        rw [h2 j]
        by_cases hj : j = a
        · subst hj
          rw [if_neg hanotin, if_pos (List.mem_cons_self j l)]
          exact hch.symm
        · by_cases hjl : j ∈ l
          · rw [if_pos hjl, if_pos (List.mem_cons_of_mem a hjl)]
          · rw [if_neg hjl, if_neg (by simp [hj, hjl])]
    · have hbne : (is_button_pressed bs a != s.button_states.getD a false) = true :=
        bne_iff_ne.mpr hch
      have hstep : buttonScanStep bs a (s, evs) =
          ({ s with button_states :=
              s.button_states.set a (is_button_pressed bs a) },
            evs ++ [Event.ButtonChange (as_device_button a)
              (is_button_pressed bs a) s.shift_pressed]) := by
        unfold buttonScanStep
        dsimp only
        rw [if_pos hbne, if_neg (by simp [BUTTON_SHIFT, ha0])]
      rw [hstep]
      obtain ⟨h1, h2, h3, h4⟩ := ih
        { s with button_states := s.button_states.set a (is_button_pressed bs a) }
        (evs ++ [Event.ButtonChange (as_device_button a)
          (is_button_pressed bs a) s.shift_pressed])
        hnzl hndl
        (fun x hx => by
          dsimp only
          rw [List.length_set]
          exact hlt x (List.mem_cons_of_mem a hx))
      dsimp only at h1 h2 h3 h4
      refine ⟨?_, ?_, h3, by rw [h4, List.length_set]⟩
      · rw [h1, scanEvents_set_ne bs s.button_states a (is_button_pressed bs a)
          s.shift_pressed l hanotin]
        have hsome : scanEvents bs s.button_states s.shift_pressed (a :: l) =
            Event.ButtonChange (as_device_button a) (is_button_pressed bs a)
              s.shift_pressed :: scanEvents bs s.button_states s.shift_pressed l := by
          unfold scanEvents
          rw [List.filterMap_cons_some]
          rw [if_pos hbne]
        rw [hsome]
        simp
      · intro j
        rw [h2 j]
        by_cases hj : j = a
        · subst hj
          rw [if_neg hanotin, if_pos (List.mem_cons_self j l),
            list_getD_set_self s.button_states j (is_button_pressed bs j) false halt]
        · by_cases hjl : j ∈ l
          · rw [if_pos hjl, if_pos (List.mem_cons_of_mem a hjl)]
          · rw [if_neg hjl, if_neg (by simp [hj, hjl]),
              list_getD_set_ne s.button_states a j (is_button_pressed bs a) false
                (fun h => hj h.symm)]

/-- C3 (amended): the button scan reads bytes 0 to 3 as a bitmask over
the 32 slots 0 to 31 (byte = slot shifted right by 3, bit = slot mod 8),
compares each of those slots with the snapshot, stores the new bit for
every changed slot and emits a ButtonChange for every changed non-Shift
slot; snapshot entries 32 to 44 are never scanned or updated. -/
theorem C3_button_scan_amended (s : Mk2) (bs : List Nat)
    (h5 : 5 ≤ bs.length) (hlen : s.button_states.length = 45) :
    (process_buttons s bs).2 = none ∧
    (∀ j, (process_buttons s bs).1.1.button_states.getD j false =
      if j < 32 then is_button_pressed bs j
      else s.button_states.getD j false) ∧
    (∃ encDelta, (process_buttons s bs).1.2 =
        specButtonScanEvents s bs ++ encDelta ∧
      ∀ e ∈ encDelta, isEncoderEvent e = true) := by
  unfold process_buttons
  rw [if_neg (Nat.not_lt.mpr h5)]
  dsimp only
  have hsplit : List.range BUTTON_NONE = 0 :: List.range' 1 31 := by decide
  rw [hsplit, List.foldl_cons]
  have hmem : ∀ x ∈ List.range' 1 31, x ≠ 0 := by
    intro x hx
    have := List.mem_range'_1.mp hx
    omega
  have hnd : (List.range' 1 31).Nodup := List.nodup_range' 1 31
  have h0notin : (0 : Nat) ∉ List.range' 1 31 := by decide
  by_cases hch0 : is_button_pressed bs 0 = s.button_states.getD 0 false
  · have hstep : buttonScanStep bs 0 (s, ([] : List Event)) = (s, []) := by
      unfold buttonScanStep
      dsimp only
      rw [if_neg (by simp [hch0])]
    rw [hstep]
    have hlt : ∀ x ∈ List.range' 1 31, x < s.button_states.length := by
      intro x hx
      have := List.mem_range'_1.mp hx
      omega
    obtain ⟨h1, h2, h3, h4⟩ := scanFold_char bs (List.range' 1 31) s [] hmem hnd hlt
    have hspec : specButtonScanEvents s bs =
        scanEvents bs s.button_states s.shift_pressed (List.range' 1 31) := by
      unfold specButtonScanEvents scanEvents
      simp only [hch0, bne_self_eq_false, Bool.false_eq_true, if_false]
    rw [List.nil_append] at h1
    split
    · refine ⟨rfl, fun j => ?_, ?_⟩
      · dsimp only
        rw [h2 j]
        by_cases hmemj : j ∈ List.range' 1 31
        · have hj := List.mem_range'_1.mp hmemj
          rw [if_pos hmemj, if_pos (by omega)]
        · by_cases hj32 : j < 32
          · have hj0 : j = 0 := by
              rcases Nat.eq_zero_or_pos j with rfl | hpos
              · rfl
              · exact absurd (List.mem_range'_1.mpr ⟨hpos, by omega⟩) hmemj
            subst hj0
            rw [if_neg hmemj, if_pos hj32]
            exact hch0.symm
          · rw [if_neg hmemj, if_neg hj32]
      · dsimp only
        exact encDelta_exists (h1.trans hspec.symm)
          (fun e he => by rw [List.mem_singleton] at he; subst he; rfl)
    · refine ⟨rfl, fun j => ?_, ?_⟩
      · dsimp only
        rw [h2 j]
        by_cases hmemj : j ∈ List.range' 1 31
        · have hj := List.mem_range'_1.mp hmemj
          rw [if_pos hmemj, if_pos (by omega)]
        · by_cases hj32 : j < 32
          · have hj0 : j = 0 := by
              rcases Nat.eq_zero_or_pos j with rfl | hpos
              · rfl
              · exact absurd (List.mem_range'_1.mpr ⟨hpos, by omega⟩) hmemj
            subst hj0
            rw [if_neg hmemj, if_pos hj32]
            exact hch0.symm
          · rw [if_neg hmemj, if_neg hj32]
      · exact ⟨[], by dsimp only; rw [List.append_nil]; exact h1.trans hspec.symm, by simp⟩
  · have hbne0 : (is_button_pressed bs 0 != s.button_states.getD 0 false) = true :=
      bne_iff_ne.mpr hch0
    have hstep : buttonScanStep bs 0 (s, ([] : List Event)) =
        (set_led { s with
            button_states := s.button_states.set 0 (is_button_pressed bs 0),
            shift_pressed := is_button_pressed bs 0 } LED_SHIFT
          (if is_button_pressed bs 0 then Colour.WHITE else Colour.BLACK),
          []) := by
      unfold buttonScanStep
      dsimp only
      rw [if_pos hbne0, if_pos (by simp [BUTTON_SHIFT])]
    rw [hstep]
    generalize (if is_button_pressed bs 0 then Colour.WHITE else Colour.BLACK) = col
    have hpres := set_led_preserves { s with
        button_states := s.button_states.set 0 (is_button_pressed bs 0),
        shift_pressed := is_button_pressed bs 0 } LED_SHIFT col
    have hbs : (set_led { s with
        button_states := s.button_states.set 0 (is_button_pressed bs 0),
        shift_pressed := is_button_pressed bs 0 } LED_SHIFT col).button_states =
        s.button_states.set 0 (is_button_pressed bs 0) := hpres.1
    have hsh : (set_led { s with
        button_states := s.button_states.set 0 (is_button_pressed bs 0),
        shift_pressed := is_button_pressed bs 0 } LED_SHIFT col).shift_pressed =
        is_button_pressed bs 0 := hpres.2
    have hlt : ∀ x ∈ List.range' 1 31, x < (set_led { s with
        button_states := s.button_states.set 0 (is_button_pressed bs 0),
        shift_pressed := is_button_pressed bs 0 } LED_SHIFT
          col).button_states.length := by
      intro x hx
      have := List.mem_range'_1.mp hx
      rw [hbs, List.length_set, hlen]
      omega
    obtain ⟨h1, h2, h3, h4⟩ := scanFold_char bs (List.range' 1 31)
      (set_led { s with
        button_states := s.button_states.set 0 (is_button_pressed bs 0),
        shift_pressed := is_button_pressed bs 0 } LED_SHIFT col)
      [] hmem hnd hlt
    simp only [hbs, hsh] at h1 h2
    rw [scanEvents_set_ne bs s.button_states 0 (is_button_pressed bs 0)
      (is_button_pressed bs 0) (List.range' 1 31) h0notin, List.nil_append] at h1
    have hspec : specButtonScanEvents s bs =
        scanEvents bs s.button_states (is_button_pressed bs 0)
          (List.range' 1 31) := by
      unfold specButtonScanEvents scanEvents
      simp only [hbne0, if_true]
    split
    · refine ⟨rfl, fun j => ?_, ?_⟩
      · dsimp only
        rw [h2 j]
        by_cases hmemj : j ∈ List.range' 1 31
        · have hj := List.mem_range'_1.mp hmemj
          rw [if_pos hmemj, if_pos (by omega)]
        · by_cases hj32 : j < 32
          · have hj0 : j = 0 := by
              rcases Nat.eq_zero_or_pos j with rfl | hpos
              · rfl
              · exact absurd (List.mem_range'_1.mpr ⟨hpos, by omega⟩) hmemj
            subst hj0
            rw [if_neg hmemj, if_pos hj32,
              list_getD_set_self s.button_states 0 (is_button_pressed bs 0) false
                (by rw [hlen]; omega)]
          · rw [if_neg hmemj, if_neg hj32,
              list_getD_set_ne s.button_states 0 j (is_button_pressed bs 0) false
                (by omega)]
      · dsimp only
        exact encDelta_exists (h1.trans hspec.symm)
          (fun e he => by rw [List.mem_singleton] at he; subst he; rfl)
    · refine ⟨rfl, fun j => ?_, ?_⟩
      · dsimp only
        rw [h2 j]
        by_cases hmemj : j ∈ List.range' 1 31
        · have hj := List.mem_range'_1.mp hmemj
          rw [if_pos hmemj, if_pos (by omega)]
        · by_cases hj32 : j < 32
          · have hj0 : j = 0 := by
              rcases Nat.eq_zero_or_pos j with rfl | hpos
              · rfl
              · exact absurd (List.mem_range'_1.mpr ⟨hpos, by omega⟩) hmemj
            subst hj0
            rw [if_neg hmemj, if_pos hj32,
              list_getD_set_self s.button_states 0 (is_button_pressed bs 0) false
                (by rw [hlen]; omega)]
          · rw [if_neg hmemj, if_neg hj32,
              list_getD_set_ne s.button_states 0 j (is_button_pressed bs 0) false
                (by omega)]
      · exact ⟨[], by dsimp only; rw [List.append_nil]; exact h1.trans hspec.symm, by simp⟩

/-- C3 counterexample: in the fresh state, a 5-byte report whose bytes
0 to 3 are zero and whose byte 4 has bit 0 set gives slot 32 of the
45-slot table a bit value (true, via byte index 32 shifted right by 3 =
4 and bit 32 mod 8 = 0) that differs from its snapshot entry (false),
yet process_buttons succeeds and leaves the snapshot entry of slot 32
unchanged: the scan covers only slots 0 to 31. -/
theorem C3_counterexample :
    is_button_pressed [0, 0, 0, 0, 1] 32 = true ∧
    (newMk2 dev0).button_states.getD 32 false = false ∧
    (process_buttons (newMk2 dev0)
      [0, 0, 0, 0, 1]).1.1.button_states.getD 32 false = false ∧
    (process_buttons (newMk2 dev0) [0, 0, 0, 0, 1]).2 = none := by
  decide

theorem C3_witness :
    (5 : Nat) ≤ ([0, 0, 0, 0, 1] : List Nat).length ∧
    (newMk2 dev0).button_states.length = 45 ∧
    (∀ j, (process_buttons (newMk2 dev0)
        [0, 0, 0, 0, 1]).1.1.button_states.getD j false =
      if j < 32 then is_button_pressed [0, 0, 0, 0, 1] j
      else (newMk2 dev0).button_states.getD j false) :=
  ⟨by decide, by decide,
    (C3_button_scan_amended (newMk2 dev0) [0, 0, 0, 0, 1]
      (by decide) (by decide)).2.1⟩

end Maschine
